import Mathlib

/-!
Verification of the discussion-retrieval pipeline (Perplexica Reddit fork).

The TypeScript sources are shallowly embedded below.  JavaScript strings are
modelled as `List Char` (the inputs we reason about are ASCII, where JS UTF-16
length coincides with character count).  JS numbers appearing in scoring are
modelled as `ℚ`, with `Math.log10` abstracted as a function parameter (IEEE
rounding is outside the embedding).  External collaborators (HTTP fetching, the
JS regex engine, html-to-text conversion, embeddings) are abstracted as
explicit oracle parameters; everything after those boundaries follows the
source line by line.
-/

namespace Perplexica

/-! ## JS string primitives on `List Char` -/

/-- Prefix test used by the substring scanners. -/
def isPrefixL : List Char → List Char → Bool
  | [], _ => true
  | _ :: _, [] => false
  | p :: ps, c :: cs => p == c && isPrefixL ps cs

/-- JS `s.includes(pat)`. -/
def containsSub : List Char → List Char → Bool
  | [], pat => pat.isEmpty
  | c :: t, pat => isPrefixL pat (c :: t) || containsSub t pat

/-- JS `s.indexOf(pat)`; `none` models the return value `-1`. -/
def jsIndexOf : List Char → List Char → Option Nat
  | [], pat => if pat.isEmpty then some 0 else none
  | c :: t, pat =>
    if isPrefixL pat (c :: t) then some 0 else (jsIndexOf t pat).map (· + 1)

/-- JS `s.lastIndexOf(pat, fromIdx)`: the largest index `≤ fromIdx` at which
`pat` occurs; `none` models `-1`. -/
def jsLastIndexOf (s pat : List Char) (fromIdx : Nat) : Option Nat :=
  ((List.range (s.length + 1)).filter
    (fun i => decide (i ≤ fromIdx) && isPrefixL pat (s.drop i))).getLast?

/-- JS `s.replace(pat, rep)` with a plain-string pattern: replaces the first
occurrence only. -/
def jsReplaceFirst (s pat rep : List Char) : List Char :=
  match jsIndexOf s pat with
  | none => s
  | some i => s.take i ++ rep ++ s.drop (i + pat.length)

/-- JS `s.substring(a, b)`: clamps both indices to the string and swaps them
when `a > b`. -/
def jsSubstring (s : List Char) (a b : Nat) : List Char :=
  (s.drop (min (min a b) s.length)).take (min (max a b) s.length - min (min a b) s.length)

/-- JS `s.split(sep)[0]`. -/
def jsSplitHead (s : List Char) (sep : Char) : List Char :=
  s.takeWhile (fun c => !(c == sep))

/-- The whitespace characters relevant to the markup we model
(JS `trim` additionally strips rarer Unicode spaces). -/
def isJsSpace (c : Char) : Bool :=
  c == ' ' || c == '\t' || c == '\n' || c == '\r'

/-- JS `s.trim()`. -/
def jsTrim (s : List Char) : List Char :=
  ((s.dropWhile isJsSpace).reverse.dropWhile isJsSpace).reverse

/-- JS `s.toLocaleLowerCase()` restricted to the default locale on ASCII. -/
def toLowerL (s : List Char) : List Char := s.map Char.toLower

/-! ## A stable descending sort

`Array.prototype.sort` is required to be stable (ECMA-262, and V8 complies);
both call sites sort by a numeric key descending.  A stable sort is uniquely
determined by its comparator and input order, so we model it by a stable
descending insertion sort on the comparison key. -/

/-- Insert `x` in front of the first element whose key is strictly smaller,
keeping it after earlier elements with an equal key (stability). -/
def insDescBy {α β : Type} [LinearOrder β] (f : α → β) (x : α) : List α → List α
  | [] => [x]
  | y :: ys => if f x < f y then y :: insDescBy f x ys else x :: y :: ys

/-- Stable descending sort by the key `f`; models `.sort((a, b) => f b - f a)`. -/
def sortDescBy {α β : Type} [LinearOrder β] (f : α → β) : List α → List α
  | [] => []
  | x :: xs => insDescBy f x (sortDescBy f xs)

/-- The order the output of a stable descending sort satisfies: strictly
larger key first, and original position order on equal keys. -/
def stableDescRel {α β : Type} [LinearOrder β] (f : α → β) (g : α → Nat)
    (a b : α) : Prop :=
  f b < f a ∨ (f a = f b ∧ g a < g b)

/-! ## Discussion extractor (`extractRedditContent`)

The JS regex engine is the abstraction boundary: a `CommentMatch` is the data
one iteration of the `fullCommentRegex` loop obtains from the builtin matcher —
the class-list capture, the optional author/body capture of
`commentContentRegex` (body already converted by the external `htmlToText`),
and the optional parsed digits of `scoreRegex`.  Everything the source does
with those captures is modelled exactly. -/

structure CommentMatch where
  classes : List Char
  content : Option (List Char × List Char)
  score : Option Nat
deriving DecidableEq

/-- Internal comment record of the extractor.  `pos` is a ghost field
recording the markup position of the match; the JS records carry no such field
but a stable sort's output order is independent of it. -/
structure IComment where
  author : List Char
  text : List Char
  score : Option Nat
  scoreNum : Nat
  visible : Bool
  pos : Nat
deriving DecidableEq

def noncollapsedMarker : List Char := "noncollapsed".data

def collapsedMarker : List Char := "collapsed".data

/-- The comment-collection loop of `extractRedditContent` (documents.ts
lines 97-135): visibility from the class capture, score defaulting to 0,
and dropping comments whose trimmed text is empty. -/
def collectCommentsAux : Nat → List CommentMatch → List IComment
  | _, [] => []
  | i, m :: ms =>
    match m.content with
    | none => collectCommentsAux (i + 1) ms
    | some (author, text) =>
      if 0 < (jsTrim text).length then
        { author := author
          text := jsTrim text
          score := m.score
          scoreNum := m.score.getD 0
          visible := containsSub m.classes noncollapsedMarker &&
            !containsSub m.classes collapsedMarker
          pos := i } :: collectCommentsAux (i + 1) ms
      else collectCommentsAux (i + 1) ms

def collectComments (ms : List CommentMatch) : List IComment :=
  collectCommentsAux 0 ms

/-- The selection stage of `extractRedditContent` (documents.ts lines
137-162): sort all comments by score descending, keep the visible ones capped
at `MAX_COMMENTS = 10`, and fall back to the top 10 of the full set when no
visible comment survives. -/
def selectComments (all : List IComment) : List IComment :=
  let sorted := sortDescBy IComment.scoreNum all
  let visibleComments := sorted.filter (fun c => c.visible)
  let outputComments := visibleComments.take 10
  if outputComments.length = 0 ∧ 0 < all.length then sorted.take 10
  else outputComments

/-- Output comment shape of the extractor (the `map` on lines 144-148). -/
structure OutComment where
  author : List Char
  text : List Char
  score : Option Nat
deriving DecidableEq

def IComment.forget (c : IComment) : OutComment :=
  { author := c.author, text := c.text, score := c.score }

structure Extracted where
  title : List Char
  postContent : List Char
  comments : List OutComment
  success : Bool
deriving DecidableEq

/-- Parsed-page abstraction for a fetched discussion page: the values the
title/post-body regexes and `htmlToText` (both external) would deliver, plus
the raw payload length used by the proxy-size check. -/
structure RedditPage where
  htmlLength : Nat
  titleTag : Option (List Char)
  postBodyText : Option (List Char)
  commentMatches : List CommentMatch
deriving DecidableEq

/-- The title regex captures a single line, and `.replace(/ : .*$/, '')`
removes everything from the first " : " on. -/
def stripTitleSuffix (t : List Char) : List Char :=
  match jsIndexOf t (" : ".data) with
  | none => t
  | some i => t.take i

def defaultTitle : List Char := "Reddit Discussion".data

/-- `extractRedditContent` over a parsed page. -/
def extractRedditContent (page : RedditPage) : Extracted :=
  let postContent := page.postBodyText.getD []
  let comments := (selectComments (collectComments page.commentMatches)).map IComment.forget
  { title := match page.titleTag with
      | some t => stripTitleSuffix t
      | none => defaultTitle
    postContent := postContent
    comments := comments
    success := decide (0 < postContent.length) || decide (0 < comments.length) }

/-! ## Link-mode document fetching (`getDocumentsFromLinks`)

The proxy fetch is abstracted as an oracle `fetch : url → Except msg page`
returning either the error message of a thrown fetch/proxy failure or the
fetched page in parsed form (with its raw byte length).  Batching (size 2,
5000 ms pause) only paces the requests; documents are modelled in input
order, which `Promise.all` guarantees per batch up to within-batch completion
order — the claims below are order-insensitive over the reddit part. -/

structure Doc where
  pageContent : List Char
  title : List Char
  url : List Char
  isReddit : Bool := false
deriving DecidableEq

def redditComStr : List Char := "reddit.com".data

/-- URL normalization at the top of `getDocumentsFromLinks` (documents.ts
lines 187-212): prefix a scheme, strip query parameters from reddit URLs,
drop non-post reddit URLs, and rewrite reddit hosts to `old.reddit.com`. -/
def normalizeLink (link : List Char) : Option (List Char) :=
  let url := if isPrefixL ("http://".data) link || isPrefixL ("https://".data) link
    then link else ("https://".data) ++ link
  if containsSub url redditComStr then
    let u := jsSplitHead url '?'
    if containsSub u ("klp/".data) || containsSub u ("/t/".data) ||
        !containsSub u ("/comments/".data) then none
    else if containsSub u ("www.reddit.com".data) then
      some (jsReplaceFirst u ("www.reddit.com".data) ("old.reddit.com".data))
    else if containsSub u redditComStr && !containsSub u ("old.reddit.com".data) then
      some (jsReplaceFirst u redditComStr ("old.reddit.com".data))
    else some u
  else some url

/-- The failure document pushed by the catch handler (lines 390-398). -/
def failureDoc (link msg : List Char) : Doc :=
  { pageContent := "Failed to retrieve content from the link: ".data ++ msg
    title := "Failed to retrieve content".data
    url := link }

/-- The placeholder pushed for each non-reddit URL (lines 414-424). -/
def nonRedditPlaceholder (link : List Char) : Doc :=
  { pageContent :=
      "This is a non-Reddit URL that was not processed to avoid complexity in this fix: ".data ++ link
    title := "Non-Reddit URL".data
    url := link }

def formatComment (c : OutComment) : List Char :=
  "**".data ++ c.author ++
    (match c.score with
     | some n => " (".data ++ (toString n).data ++ " points)".data
     | none => []) ++
    "**:\n".data ++ c.text ++ "\n\n".data

/-- The structured content assembled for a successfully extracted page
(lines 347-362), then trimmed. -/
def formatRedditContent (ex : Extracted) : List Char :=
  jsTrim ("# ".data ++ ex.title ++ "\n\n".data ++
    (if 0 < (jsTrim ex.postContent).length then
      "## Original Post\n\n".data ++ jsTrim ex.postContent ++ "\n\n".data
    else []) ++
    (if 0 < ex.comments.length then
      "## Comments\n\n".data ++ (ex.comments.map formatComment).flatten
    else []))

/-- Processing of one reddit link (the `fetchPromise` body, lines 243-380):
an error (timeout, proxy failure, disabled direct fetch) becomes a failure
document via the catch handler; a payload under 1000 bytes raises the
insufficient-content error; a successful extraction yields a formatted
document; a fetched page whose extraction fails yields nothing at all. -/
def processRedditLink (fetch : List Char → Except (List Char) RedditPage)
    (link : List Char) : Option Doc :=
  match fetch link with
  | Except.error msg => some (failureDoc link msg)
  | Except.ok page =>
    if page.htmlLength < 1000 then
      some (failureDoc link ("Insufficient content received from proxy".data))
    else
      let ex := extractRedditContent page
      if ex.success then
        some { pageContent := formatRedditContent ex
               title := ex.title
               url := link
               isReddit := true }
      else none

/-- `getDocumentsFromLinks`: normalize, keep at most `MAX_REDDIT_LINKS = 5`
reddit links for fetching, and emit placeholders for every non-reddit link. -/
def getDocumentsFromLinks (fetch : List Char → Except (List Char) RedditPage)
    (links : List (List Char)) : List Doc :=
  let normalizedLinks := links.filterMap normalizeLink
  let redditLinks := normalizedLinks.filter (fun l => containsSub l redditComStr)
  let redditLinksToProcess := redditLinks.take 5
  let redditDocs := redditLinksToProcess.filterMap (processRedditLink fetch)
  let nonRedditLinks := normalizedLinks.filter (fun l => !containsSub l redditComStr)
  redditDocs ++ nonRedditLinks.map nonRedditPlaceholder

/-! ## Thread scorer (`extractTopCommentScore`) and its retry loop

The network is abstracted as `oracle : attempt → url → Except err page`,
giving the outcome of requesting `url` during retry round `attempt`
(0, 1 or 2).  A `ThreadPage` carries what the coarse score scan would parse:
the optional score digits of every comment-block match, and the two optional
post-score captures.  The trace of emitted requests and delays is returned so
that retry behaviour is provable. -/

structure FetchErrInfo where
  status : Option Nat
deriving DecidableEq

structure ThreadPage where
  commentScores : List (Option Nat)
  postScoreMain : Option Nat
  postScoreAlt : Option Nat
deriving DecidableEq

inductive FetchEv where
  | wait (ms : Nat)
  | req (attempt : Nat) (url : List Char)
deriving DecidableEq

def oldRedditStr : List Char := "old.reddit.com".data

def wwwRedditStr : List Char := "www.reddit.com".data

/-- URL normalization at the top of `extractTopCommentScore` (lines 780-783). -/
def normalizeForScore (url : List Char) : List Char :=
  if containsSub url wwwRedditStr then jsReplaceFirst url wwwRedditStr oldRedditStr
  else url

/-- The alternate-host variant tried when the primary request fails
(line 831). -/
def altReddit (u : List Char) : List Char := jsReplaceFirst u oldRedditStr wwwRedditStr

/-- One iteration body of the retry loop (lines 803-859): request the
normalized URL; if that throws and the URL is an `old.reddit.com` URL,
immediately request the `www.reddit.com` variant inside the same attempt. -/
def attemptFetch (oracle : Nat → List Char → Except FetchErrInfo ThreadPage)
    (k : Nat) (normUrl : List Char) : List FetchEv × Except FetchErrInfo ThreadPage :=
  match oracle k normUrl with
  | Except.ok p => ([FetchEv.req k normUrl], Except.ok p)
  | Except.error e =>
    if containsSub normUrl oldRedditStr then
      match oracle k (altReddit normUrl) with
      | Except.ok p =>
        ([FetchEv.req k normUrl, FetchEv.req k (altReddit normUrl)], Except.ok p)
      | Except.error e2 =>
        ([FetchEv.req k normUrl, FetchEv.req k (altReddit normUrl)], Except.error e2)
    else ([FetchEv.req k normUrl], Except.error e)

/-- The retry loop (lines 791-881): `maxRetries = 3`; before retry number
`retries` it waits `2000 * retries` ms; after the third failed attempt the
error propagates (modelled as `none`).  The fuel argument is `3 - retries`
and is never exhausted. -/
def fetchWithRetries (oracle : Nat → List Char → Except FetchErrInfo ThreadPage)
    (normUrl : List Char) : Nat → Nat → List FetchEv × Option ThreadPage
  | 0, _ => ([], none)
  | fuel + 1, retries =>
    let pre : List FetchEv :=
      if 0 < retries then [FetchEv.wait (2000 * retries)] else []
    match attemptFetch oracle retries normUrl with
    | (evs, Except.ok p) => (pre ++ evs, some p)
    | (evs, Except.error _) =>
      if 3 ≤ retries + 1 then (pre ++ evs, none)
      else
        let rest := fetchWithRetries oracle normUrl fuel (retries + 1)
        (pre ++ evs ++ rest.1, rest.2)

/-- The request/delay trace produced while scoring one URL. -/
def scoreTrace (oracle : Nat → List Char → Except FetchErrInfo ThreadPage)
    (url : List Char) : List FetchEv :=
  (fetchWithRetries oracle (normalizeForScore url) 3 0).1

/-- The comment-scan accumulator (lines 903-921): track the highest parsed
comment score, starting from 0. -/
def highestCommentScore (page : ThreadPage) : Nat :=
  page.commentScores.foldl
    (fun h s => match s with
      | some n => if h < n then n else h
      | none => h) 0

/-- Post score (lines 924-935): the main pattern, else the alternate
`score unvoted` pattern, else 0. -/
def postScoreOf (page : ThreadPage) : Nat :=
  match page.postScoreMain with
  | some n => n
  | none => page.postScoreAlt.getD 0

/-- `combinedScore = highestScore + (postScore > 0 ? log10(postScore) * 3 : 0)`
(line 938), with `Math.log10` over IEEE doubles abstracted as `log10`. -/
def combinedScore (log10 : Nat → ℚ) (page : ThreadPage) : ℚ :=
  (highestCommentScore page : ℚ) +
    (if 0 < postScoreOf page then log10 (postScoreOf page) * 3 else 0)

structure ScoreResult where
  url : List Char
  score : ℚ
deriving DecidableEq

/-- `extractTopCommentScore` (lines 777-977): the whole body is wrapped in a
try/catch whose handler returns a zero-score result, so a fetch failure
(retries exhausted) yields score 0; the diagnostic `details`/`metrics`
payloads are logging side channels and are not modelled. -/
def extractTopCommentScore (log10 : Nat → ℚ)
    (oracle : Nat → List Char → Except FetchErrInfo ThreadPage)
    (url : List Char) : ScoreResult :=
  match (fetchWithRetries oracle (normalizeForScore url) 3 0).2 with
  | none => { url := url, score := 0 }
  | some page => { url := url, score := combinedScore log10 page }

/-- The batch loop of `createSearchRetrieverChain` (lines 989-1017):
`BATCH_SIZE = 3` slices processed by `Promise.all`, which preserves input
order; the 3000 ms inter-batch delay only paces requests. -/
def batchProcess {α β : Type} (f : α → β) : List α → List β
  | [] => []
  | x :: xs => (((x :: xs).take 3).map f) ++ batchProcess f ((x :: xs).drop 3)
termination_by l => l.length
decreasing_by simp; omega

/-- The thread-scoring stage over the candidate URL list. -/
def scoreRedditUrls (log10 : Nat → ℚ)
    (oracle : Nat → List Char → Except FetchErrInfo ThreadPage)
    (urls : List (List Char)) : List ScoreResult :=
  batchProcess (extractTopCommentScore log10 oracle) urls

/-! ## Document reranker (`rerankDocs`)

Uploaded files are modelled post-I/O: an `UploadedFile` is the parsed content
of the `-extracted.json` / `-embeddings.json` pair.  The embedding collaborator
appears as the two functions of its interface, and `computeSimilarity` (whose
module is outside this snapshot; per the spec it is cosine similarity) as an
abstract similarity function — no claim below depends on its formula. -/

structure UploadedFile where
  title : List Char
  contents : List (List Char)
  embeddings : List (List ℚ)

structure FileChunkData where
  fileName : List Char
  content : List Char
  embedding : List ℚ

/-- The per-file flattening (lines 1201-1223). -/
def filesDataOf (files : List UploadedFile) : List FileChunkData :=
  (files.map (fun f =>
    f.contents.enum.map (fun p =>
      { fileName := f.title
        content := p.2
        embedding := f.embeddings.getD p.1 [] }))).flatten

inductive OptMode where
  | speed
  | balanced
  | quality
deriving DecidableEq

/-- Out-of-range JS indexing yields `undefined`; the collaborator contract
(one embedding per input) keeps every index below in range. -/
def undefinedDoc : Doc := { pageContent := [], title := [], url := [] }

def fileChunkDoc (fd : FileChunkData) : Doc :=
  { pageContent := fd.content, title := fd.fileName, url := "File".data }

def summarizeStr : List Char := "summarize".data

/-- `rerankDocs` (lines 1190-1317).  `rerank` and `rerankThreshold` are the
config fields; `sim` is `computeSimilarity`. -/
def rerankDocs (sim : List ℚ → List ℚ → ℚ)
    (embedQuery : List Char → List ℚ)
    (embedDocuments : List (List Char) → List (List ℚ))
    (rerank : Bool) (rerankThreshold : Option ℚ)
    (query : List Char) (docs : List Doc) (files : List UploadedFile)
    (mode : OptMode) : List Doc :=
  if docs.length = 0 ∧ files.length = 0 then docs
  else
    let filesData := filesDataOf files
    if toLowerL query = summarizeStr then docs.take 30
    else
      let docsWithContent := docs.filter (fun d => 0 < d.pageContent.length)
      if mode = OptMode.speed ∨ rerank = false then
        if 0 < filesData.length then
          let queryEmbedding := embedQuery query
          let fileDocs := filesData.map fileChunkDoc
          let similarity := filesData.enum.map
            (fun p => (p.1, sim queryEmbedding p.2.embedding))
          let sortedDocs0 :=
            (((sortDescBy Prod.snd (similarity.filter
                (fun p => rerankThreshold.getD (3 / 10) < p.2))).take 30).map
              (fun p => fileDocs.getD p.1 undefinedDoc))
          let sortedDocs :=
            if 0 < docsWithContent.length then sortedDocs0.take 30 else sortedDocs0
          sortedDocs ++ docsWithContent.take (30 - sortedDocs.length)
        else docsWithContent.take 30
      else if mode = OptMode.balanced then
        let docEmbeddings := embedDocuments (docsWithContent.map Doc.pageContent)
        let queryEmbedding := embedQuery query
        let allDocs := docsWithContent ++ filesData.map fileChunkDoc
        let allEmbeddings := docEmbeddings ++ filesData.map FileChunkData.embedding
        let similarity := allEmbeddings.enum.map
          (fun p => (p.1, sim queryEmbedding p.2))
        ((sortDescBy Prod.snd (similarity.filter
            (fun p => rerankThreshold.getD (3 / 10) < p.2))).take 20).map
          (fun p => allDocs.getD p.1 undefinedDoc)
      else []

/-! ## Context assembler (`processDocs`)

`maxLength * 0.75` and `maxLength * 0.25` are exact for both cap values, so
they are written as `3 * maxLength / 4` and `maxLength / 4`. -/

def truncationMarker : List Char := "\n\n[...content truncated...]\n\n".data

def additionalCommentsMarker : List Char :=
  "\n\n[...additional comments truncated...]".data

def commentsOmittedNotice : List Char :=
  "\n\n## Comments\n\n[Comments truncated to fit length limit]".data

def originalPostMarker : List Char := "## Original Post".data

def commentsMarker : List Char := "## Comments".data

/-- The default truncation (lines 1383-1391): 75%-budget head, marker,
25%-budget tail. -/
def std75 (content : List Char) (maxLength : Nat) : List Char :=
  jsSubstring content 0 (3 * maxLength / 4) ++ truncationMarker ++
    jsSubstring content (content.length - maxLength / 4) content.length

/-- Per-document truncation of `processDocs` (lines 1345-1395): content at
most `maxLength` passes through; a discussion document with both section
markers keeps its title and full post sections and truncates only the
comments section; anything else gets the 75/25 split. -/
def processDocContent (isReddit : Bool) (content : List Char) : List Char :=
  let maxLength := if isReddit then 6000 else 2000
  if content.length ≤ maxLength then content
  else if isReddit then
    match jsIndexOf content originalPostMarker, jsIndexOf content commentsMarker with
    | some postHeaderPos, some commentsHeaderPos =>
      let postSection := jsSubstring content postHeaderPos commentsHeaderPos
      let remainingSpace : Int := (maxLength : Int) - postSection.length
      let commentsSection :=
        if 500 < remainingSpace then
          let cs := jsSubstring content commentsHeaderPos content.length
          if remainingSpace < (cs.length : Int) then
            (match jsLastIndexOf cs ("\n\n".data) remainingSpace.toNat with
             | some cutoffPoint => jsSubstring cs 0 cutoffPoint
             | none => jsSubstring cs 0 remainingSpace.toNat) ++
              additionalCommentsMarker
          else cs
        else commentsOmittedNotice
      let titleSection := jsSubstring content 0 postHeaderPos
      titleSection ++ postSection ++ commentsSection
    | _, _ => std75 content maxLength
  else std75 content maxLength

/-- Discussion flag of a document (line 1340): metadata flag, or a URL
containing `reddit.com` (an empty URL is falsy and short-circuits). -/
def isRedditDoc (d : Doc) : Bool := d.isReddit || containsSub d.url redditComStr

def orElseStr (s dflt : List Char) : List Char := if s.isEmpty then dflt else s

/-- One numbered source block (lines 1336-1397): header line, discussion
marker, then the truncated content. -/
def docBlock (index : Nat) (d : Doc) : List Char :=
  (toString (index + 1)).data ++ (". ".data) ++ orElseStr d.title ("Untitled".data) ++
    (" (Source: ".data) ++ orElseStr d.url ("Unknown".data) ++ (")".data) ++
    (if isRedditDoc d then (" [REDDIT DISCUSSION]".data) else []) ++ ("\n".data) ++
    processDocContent (isRedditDoc d) d.pageContent ++ "\n".data

def processDocsHeader (n : Nat) : List Char :=
  "\nIMPORTANT: This search query has returned ".data ++ (toString n).data ++
    " sources. You should use information from most of these sources in your response, as long as they contain relevant information.\nThe sources are listed below, numbered from 1 to ".data ++
    (toString n).data ++ ". Use these numbers when citing information in your response.\n".data

/-- `processDocs` (lines 1319-1403): cap at `MAX_DOCUMENTS = 8`, emit the
header, then the blocks joined by a separator. -/
def processDocs (docs : List Doc) : List Char :=
  let kept := docs.take 8
  processDocsHeader kept.length ++
    (List.intersperse ("\n---\n\n".data)
      (kept.enum.map (fun p => docBlock p.1 p.2))).flatten

/-! ## Web-search wrapper (`searchGoogle`)

The HTTP layer is abstracted as `oracle : request → Except Unit response`
where a request records the parameters the code sets on the Custom Search URL
and a response is the parsed JSON body.  The returned trace lists every
request sent, so the query-prefix property is provable. -/

structure GOpts where
  language : Option (List Char) := none
  pageno : Option Nat := none
  numResults : Option Nat := none

structure GApiItem where
  title : List Char
  link : List Char
  snippet : Option (List Char)
  cseImageSrc : Option (List Char)
  cseThumbnailSrc : Option (List Char)
deriving DecidableEq

structure GResult where
  title : List Char
  url : List Char
  content : Option (List Char)
  imgSrc : Option (List Char)
  thumbnailSrc : Option (List Char)
deriving DecidableEq

/-- The item mapping applied to each API result (lines 67-73 and 99-105). -/
def mapGoogleItem (it : GApiItem) : GResult :=
  { title := it.title
    url := it.link
    content := it.snippet
    imgSrc := it.cseImageSrc
    thumbnailSrc := it.cseThumbnailSrc }

structure GResponse where
  items : Option (List GApiItem)
  correctedQuery : Option (List Char)
  hasNextPage : Bool

structure GRequest where
  q : List Char
  start : Option Nat
  lr : Option (List Char)
  num : Nat
deriving DecidableEq

structure GOut where
  results : List GResult
  suggestions : List (List Char)
deriving DecidableEq

/-- JS falsiness of an optional string config value (`!apiKey`). -/
def falsyStr : Option (List Char) → Bool
  | none => true
  | some s => s.isEmpty

/-- The first request built on lines 38-58: the query prefixed with
`Reddit `, optional pagination start, optional language restriction, and
`num = min(numResults, 10)`. -/
def googleBaseRequest (query : List Char) (opts : GOpts) : GRequest :=
  { q := "Reddit ".data ++ query
    start := match opts.pageno with
      | some p => if 1 < p then some ((p - 1) * 10 + 1) else none
      | none => none
    lr := opts.language.map (fun l => "lang_".data ++ l)
    num := min (opts.numResults.getD 10) 10 }

/-- The additional-pages loop (lines 88-118): stop on page budget, enough
results, a failed request, or a response without items.  The fuel argument
exceeds the page budget and is never exhausted. -/
def googleFetchPages (oracle : GRequest → Except Unit GResponse) (base : GRequest)
    (maxPages numResults : Nat) :
    Nat → Nat → List GResult → List GResult × List GRequest
  | 0, _, acc => (acc, [])
  | fuel + 1, currentPage, acc =>
    if currentPage ≤ maxPages ∧ acc.length < numResults then
      let req := { base with start := some ((currentPage - 1) * 10 + 1) }
      match oracle req with
      | Except.error _ => (acc, [req])
      | Except.ok resp =>
        match resp.items with
        | some its =>
          let rest := googleFetchPages oracle base maxPages numResults fuel
            (currentPage + 1) (acc ++ its.map mapGoogleItem)
          (rest.1, req :: rest.2)
        | none => (acc, [req])
    else (acc, [])

def cfgErrorMsg : List Char :=
  "Google PSE API key or Search Engine ID not configured".data

/-- `searchGoogle` (googleSearch.ts lines 22-133): throws when the key or
engine id is unset (the `Except.error` case); afterwards any request failure
is absorbed — the outer catch returns empty results and the per-page catch
breaks the pagination loop. -/
def searchGoogle (apiKey searchEngineId : Option (List Char))
    (oracle : GRequest → Except Unit GResponse)
    (query : List Char) (opts : GOpts) :
    Except (List Char) GOut × List GRequest :=
  if falsyStr apiKey || falsyStr searchEngineId then (Except.error cfgErrorMsg, [])
  else
    let firstReq := googleBaseRequest query opts
    let numResults := opts.numResults.getD 10
    match oracle firstReq with
    | Except.error _ => (Except.ok { results := [], suggestions := [] }, [firstReq])
    | Except.ok resp =>
      let results := (resp.items.getD []).map mapGoogleItem
      let suggestions := match resp.correctedQuery with
        | some c => [c]
        | none => []
      if 10 < numResults ∧ results.length = 10 ∧ resp.hasNextPage then
        let maxPages := (numResults + 9) / 10
        let rest := googleFetchPages oracle firstReq maxPages numResults
          (maxPages + 1) 2 results
        (Except.ok { results := rest.1.take numResults, suggestions := suggestions },
          firstReq :: rest.2)
      else (Except.ok { results := results, suggestions := suggestions }, [firstReq])

/-! ## Trace projections and claim-statement encodings -/

/-- The `(attempt, url)` pairs of the requests in a trace. -/
def reqEvsOf (t : List FetchEv) : List (Nat × List Char) :=
  t.filterMap (fun ev => match ev with
    | FetchEv.req k u => some (k, u)
    | _ => none)

/-- The waited delays in a trace, in order. -/
def waitEvsOf (t : List FetchEv) : List Nat :=
  t.filterMap (fun ev => match ev with
    | FetchEv.wait ms => some ms
    | _ => none)

/-- A request that substitutes the alternate host on a non-final attempt
(attempts are numbered 0, 1, 2; the final one is 2). -/
def earlyAltReq (norm : List Char) : FetchEv → Bool
  | FetchEv.req k u => !(u == norm) && !(k == 2)
  | _ => false

/-- Encoding of claim C8 as stated: the URL actually requested differs from
the primary normalized URL only on the final attempt. -/
def altHostOnlyOnFinalAttempt
    (oracle : Nat → List Char → Except FetchErrInfo ThreadPage)
    (url : List Char) : Bool :=
  (scoreTrace oracle url).all (fun ev => !earlyAltReq (normalizeForScore url) ev)

/-! ## Concrete inputs for witnesses and counterexamples -/

def helloDoc : Doc := { pageContent := "hello".data, title := "t".data, url := "u".data }

def emptyContentDoc : Doc := { pageContent := [], title := "t".data, url := "u".data }

def unitSim : List ℚ → List ℚ → ℚ := fun _ _ => 1

def zeroSim : List ℚ → List ℚ → ℚ := fun _ _ => 0

def unitEmbedQuery : List Char → List ℚ := fun _ => [1]

def unitEmbedDocuments : List (List Char) → List (List ℚ) := fun l => l.map (fun _ => [1])

def c8Url : List Char := "https://www.reddit.com/r/test/comments/ab/cd".data

def emptyThreadPage : ThreadPage :=
  { commentScores := [], postScoreMain := none, postScoreAlt := none }

/-- Oracle whose primary (old.reddit.com) requests fail with HTTP 429 while
the www variant succeeds. -/
def c8Oracle : Nat → List Char → Except FetchErrInfo ThreadPage := fun _ u =>
  if containsSub u wwwRedditStr then Except.ok emptyThreadPage
  else Except.error { status := some 429 }

def failOracle : Nat → List Char → Except FetchErrInfo ThreadPage :=
  fun _ _ => Except.error { status := none }

def okOracle : Nat → List Char → Except FetchErrInfo ThreadPage :=
  fun _ _ => Except.ok emptyThreadPage

def c6Url : List Char := "https://old.reddit.com/r/a/comments/1/x".data

def visibleComment : IComment :=
  { author := "a".data, text := "t".data, score := some 3, scoreNum := 3,
    visible := true, pos := 0 }

def hiddenComment : IComment :=
  { author := "b".data, text := "s".data, score := none, scoreNum := 0,
    visible := false, pos := 1 }

def c5Match : CommentMatch :=
  { classes := [], content := some ("u1".data, "hello".data), score := some 5 }

def c7Page : ThreadPage :=
  { commentScores := [some 5, none, some 3], postScoreMain := none,
    postScoreAlt := some 10 }

def c7PageZero : ThreadPage :=
  { commentScores := [some 2], postScoreMain := none, postScoreAlt := none }

def tfLink : List Char := "https://www.reddit.com/t/foo".data

def exampleComLink : List Char := "https://example.com/a".data

def errFetch : List Char → Except (List Char) RedditPage :=
  fun _ => Except.error ("err".data)

def c10Oracle : GRequest → Except Unit GResponse := fun _ => Except.error ()

/-- Content built so that both section markers are found cheaply at the
front, the whole content exceeds the 6000-character discussion cap, and the
comments-section truncation still keeps the full post section.  The
`## Comments` marker precedes `## Original Post`, so the JS `substring` swap
makes the post section the leading 11 characters. -/
def c2Bad : List Char :=
  commentsMarker ++ (originalPostMarker ++ List.replicate 5978 'a')

/-! # Theorems

First the generic lemmas about the stable sort and the comment pipeline,
then one theorem (plus witness / counterexample) per claim. -/

/-! ## Stable-sort lemmas -/

theorem mem_insDescBy {α β : Type} [LinearOrder β] (f : α → β) (x a : α)
    (l : List α) : a ∈ insDescBy f x l ↔ a = x ∨ a ∈ l := by
  induction l with
  | nil => simp [insDescBy]
  | cons y ys ih =>
    by_cases h : f x < f y
    · simp [insDescBy, h, ih]
      tauto
    · simp [insDescBy, h]

theorem mem_sortDescBy {α β : Type} [LinearOrder β] (f : α → β) (a : α)
    (l : List α) : a ∈ sortDescBy f l ↔ a ∈ l := by
  induction l with
  | nil => simp [sortDescBy]
  | cons y ys ih => simp [sortDescBy, mem_insDescBy, ih]

theorem length_insDescBy {α β : Type} [LinearOrder β] (f : α → β) (x : α)
    (l : List α) : (insDescBy f x l).length = l.length + 1 := by
  induction l with
  | nil => simp [insDescBy]
  | cons y ys ih => by_cases h : f x < f y <;> simp [insDescBy, h, ih]

theorem length_sortDescBy {α β : Type} [LinearOrder β] (f : α → β)
    (l : List α) : (sortDescBy f l).length = l.length := by
  induction l with
  | nil => rfl
  | cons y ys ih => simp [sortDescBy, length_insDescBy, ih]

theorem insDescBy_pairwise {α β : Type} [LinearOrder β] (f : α → β)
    (g : α → Nat) (x : α) (l : List α)
    (hl : l.Pairwise (stableDescRel f g)) (hx : ∀ y ∈ l, g x < g y) :
    (insDescBy f x l).Pairwise (stableDescRel f g) := by
  induction l with
  | nil => simp [insDescBy, List.pairwise_singleton]
  | cons y ys ih =>
    rw [List.pairwise_cons] at hl
    obtain ⟨hy, hys⟩ := hl
    have hxy : g x < g y := hx y (List.mem_cons_self y ys)
    have hx' : ∀ z ∈ ys, g x < g z := fun z hz => hx z (List.mem_cons_of_mem y hz)
    by_cases h : f x < f y
    · rw [insDescBy, if_pos h, List.pairwise_cons]
      refine ⟨fun z hz => ?_, ih hys hx'⟩
      rcases (mem_insDescBy f x z ys).1 hz with rfl | hz'
      · exact Or.inl h
      · exact hy z hz'
    · rw [insDescBy, if_neg h, List.pairwise_cons]
      refine ⟨fun z hz => ?_, List.pairwise_cons.2 ⟨hy, hys⟩⟩
      rcases List.mem_cons.1 hz with rfl | hz'
      · rcases lt_or_eq_of_le (not_lt.1 h) with hlt | heq
        · exact Or.inl hlt
        · exact Or.inr ⟨heq.symm, hxy⟩
      · rcases hy z hz' with hlt | ⟨heq, _⟩
        · rcases lt_or_eq_of_le (not_lt.1 h) with hlt2 | heq2
          · exact Or.inl (hlt.trans hlt2)
          · exact Or.inl (heq2 ▸ hlt)
        · rcases lt_or_eq_of_le (not_lt.1 h) with hlt2 | heq2
          · exact Or.inl (heq ▸ hlt2)
          · exact Or.inr ⟨(heq2.symm.trans heq).symm ▸ rfl, hx' z hz'⟩

theorem sortDescBy_pairwise {α β : Type} [LinearOrder β] (f : α → β)
    (g : α → Nat) (l : List α) (hl : l.Pairwise (fun a b => g a < g b)) :
    (sortDescBy f l).Pairwise (stableDescRel f g) := by
  induction l with
  | nil => simp [sortDescBy]
  | cons x xs ih =>
    rw [List.pairwise_cons] at hl
    exact insDescBy_pairwise f g x (sortDescBy f xs) (ih hl.2)
      (fun y hy => hl.1 y ((mem_sortDescBy f y xs).1 hy))

/-! ## Comment-pipeline lemmas -/

theorem pairwise_pos_collectCommentsAux (ms : List CommentMatch) :
    ∀ i, (collectCommentsAux i ms).Pairwise (fun a b => a.pos < b.pos) ∧
      ∀ c ∈ collectCommentsAux i ms, i ≤ c.pos := by
  induction ms with
  | nil => intro i; simp [collectCommentsAux]
  | cons m ms ih =>
    intro i
    match hc : m.content with
    | none =>
      simp only [collectCommentsAux, hc]
      exact ⟨(ih (i + 1)).1, fun c hcm => Nat.le_of_succ_le ((ih (i + 1)).2 c hcm)⟩
    | some p =>
      simp only [collectCommentsAux, hc]
      by_cases ht : 0 < (jsTrim p.2).length
      · simp only [if_pos ht]
        constructor
        · rw [List.pairwise_cons]
          exact ⟨fun c hcm => Nat.lt_of_succ_le ((ih (i + 1)).2 c hcm), (ih (i + 1)).1⟩
        · intro c hcm
          rcases List.mem_cons.1 hcm with rfl | hcm'
          · exact Nat.le_refl _
          · exact Nat.le_of_succ_le ((ih (i + 1)).2 c hcm')
      · simp only [if_neg ht]
        exact ⟨(ih (i + 1)).1, fun c hcm => Nat.le_of_succ_le ((ih (i + 1)).2 c hcm)⟩

theorem scoreNum_collectCommentsAux (ms : List CommentMatch) :
    ∀ i, ∀ c ∈ collectCommentsAux i ms, c.scoreNum = c.score.getD 0 := by
  induction ms with
  | nil => intro i; simp [collectCommentsAux]
  | cons m ms ih =>
    intro i c hcm
    match hc : m.content with
    | none =>
      rw [collectCommentsAux, hc] at hcm
      exact ih (i + 1) c hcm
    | some p =>
      simp only [collectCommentsAux, hc] at hcm
      by_cases ht : 0 < (jsTrim p.2).length
      · rw [if_pos ht] at hcm
        rcases List.mem_cons.1 hcm with rfl | hcm'
        · rfl
        · exact ih (i + 1) c hcm'
      · rw [if_neg ht] at hcm
        exact ih (i + 1) c hcm

theorem mem_selectComments (all : List IComment) :
    ∀ c ∈ selectComments all, c ∈ all := by
  intro c hc
  rw [selectComments] at hc
  split at hc
  · exact (mem_sortDescBy _ _ _).1
      (((List.take_sublist _ _).subset) hc)
  · have := ((List.take_sublist _ _).subset) hc
    exact (mem_sortDescBy _ _ _).1 (List.mem_of_mem_filter this)

/-- Claim C4: at the comment-selection stage (documents.ts lines 137-162),
a list of N ≥ 1 collected comments none of which is classified visible yields
exactly `min N 10` comments drawn from the full set, while the presence of a
visible comment yields only visible comments, at most 10.  (Over whole-page
inputs the visible case is unreachable: the classifier requires the class
capture to contain `noncollapsed` but not `collapsed`, and every string
containing the former contains the latter; the selection stage itself
satisfies both branches of the claim.) -/
theorem selectComments_c4 (all : List IComment) :
    ((∀ c ∈ all, c.visible = false) → 0 < all.length →
      (selectComments all).length = min all.length 10 ∧
      ∀ c ∈ selectComments all, c ∈ all) ∧
    ((∃ c ∈ all, c.visible = true) →
      (∀ c ∈ selectComments all, c.visible = true) ∧
      (selectComments all).length ≤ 10) := by
  constructor
  · intro hvis hlen
    have hfil : (sortDescBy IComment.scoreNum all).filter (fun c => c.visible) = [] := by
      rw [List.filter_eq_nil_iff]
      intro c hc hcv
      rw [hvis c ((mem_sortDescBy _ _ _).1 hc)] at hcv
      exact Bool.false_ne_true hcv
    constructor
    · have hcond : (((sortDescBy IComment.scoreNum all).filter
          (fun c => c.visible)).take 10).length = 0 ∧ 0 < all.length := by
        rw [hfil]
        exact ⟨rfl, hlen⟩
      rw [selectComments, if_pos hcond, List.length_take, length_sortDescBy,
        Nat.min_comm]
    · exact mem_selectComments all
  · rintro ⟨c, hc, hcv⟩
    have hmem : c ∈ (sortDescBy IComment.scoreNum all).filter (fun c => c.visible) :=
      List.mem_filter.2 ⟨(mem_sortDescBy _ _ _).2 hc, by simp [hcv]⟩
    have hne : ((sortDescBy IComment.scoreNum all).filter
        (fun c => c.visible)).take 10 ≠ [] := by
      rw [Ne, List.take_eq_nil_iff]
      rintro (h10 | hnil)
      · exact absurd h10 (by decide)
      · rw [hnil] at hmem
        exact List.not_mem_nil c hmem
    have hcond : ¬ ((((sortDescBy IComment.scoreNum all).filter
        (fun c => c.visible)).take 10).length = 0 ∧ 0 < all.length) := by
      rintro ⟨hz, _⟩
      exact hne (List.length_eq_zero.1 hz)
    rw [selectComments, if_neg hcond]
    constructor
    · intro d hd
      exact (List.mem_filter.1 ((List.take_sublist _ _).subset hd)).2
    · exact List.length_take_le _ _

/-- Witness for C4 at singleton inputs: a single hidden comment falls back to
the full list (length `min 1 10 = 1`); a single visible comment is kept
visible-only. -/
theorem selectComments_c4_witness :
    ((selectComments [hiddenComment]).length = min [hiddenComment].length 10 ∧
      ∀ c ∈ selectComments [hiddenComment], c ∈ [hiddenComment]) ∧
    ((∀ c ∈ selectComments [visibleComment], c.visible = true) ∧
      (selectComments [visibleComment]).length ≤ 10) := by
  constructor
  · exact (selectComments_c4 [hiddenComment]).1 (by decide) (by decide)
  · exact (selectComments_c4 [visibleComment]).2 ⟨visibleComment, by decide, by decide⟩

/-- Claim C5: the comment list returned by the extractor is its internal
selection mapped through the output projection, the selection is sorted by
score descending with ties in original markup order (`pos` is the match
position), and a missing score counts as 0. -/
theorem extractRedditContent_comments_sorted (page : RedditPage) :
    (extractRedditContent page).comments =
      (selectComments (collectComments page.commentMatches)).map IComment.forget ∧
    (selectComments (collectComments page.commentMatches)).Pairwise
      (fun a b => b.scoreNum < a.scoreNum ∨ (a.scoreNum = b.scoreNum ∧ a.pos < b.pos)) ∧
    ∀ c ∈ selectComments (collectComments page.commentMatches),
      c.scoreNum = c.score.getD 0 := by
  refine ⟨rfl, ?_, ?_⟩
  · have hpos := (pairwise_pos_collectCommentsAux page.commentMatches 0).1
    have hs := sortDescBy_pairwise IComment.scoreNum IComment.pos _ hpos
    rw [selectComments]
    split
    · exact hs.sublist (List.take_sublist _ _)
    · exact (hs.filter _).sublist (List.take_sublist _ _)
  · intro c hc
    exact scoreNum_collectCommentsAux page.commentMatches 0 c
      (mem_selectComments _ c hc)

/-- Witness for C5: at a one-comment page the selection contains the
collected comment, whose score defaults as claimed. -/
theorem extractRedditContent_comments_sorted_witness :
    (extractRedditContent
        { htmlLength := 2000, titleTag := none, postBodyText := none,
          commentMatches := [c5Match] }).comments =
      (selectComments (collectComments [c5Match])).map IComment.forget ∧
    ∀ c ∈ selectComments (collectComments [c5Match]), c.scoreNum = c.score.getD 0 := by
  refine ⟨(extractRedditContent_comments_sorted _).1, ?_⟩
  intro c hc
  exact (extractRedditContent_comments_sorted
    { htmlLength := 2000, titleTag := none, postBodyText := none,
      commentMatches := [c5Match] }).2.2 c hc

/-! ## Thread-scorer lemmas -/

theorem batchProcess_eq_map {α β : Type} (f : α → β) (l : List α) :
    batchProcess f l = l.map f := by
  have H : ∀ n (l : List α), l.length ≤ n → batchProcess f l = l.map f := by
    intro n
    induction n with
    | zero =>
      intro l hl
      rw [List.eq_nil_of_length_eq_zero (Nat.le_zero.1 hl)]
      simp [batchProcess]
    | succ n ih =>
      intro l hl
      match l with
      | [] => simp [batchProcess]
      | x :: xs =>
        simp only [batchProcess]
        rw [ih ((x :: xs).drop 3) (by simp at hl ⊢; omega),
          ← List.map_append, List.take_append_drop]
  exact H l.length l (Nat.le_refl _)

/-- Claim C6: the thread-scoring stage returns one result per input URL in
order, and a URL whose fetch fails (all retries exhausted — the model's
`none`, the only failure the embedded scorer can encounter) gets the
zero-score result rather than an exception. -/
theorem scoreRedditUrls_c6 (log10 : Nat → ℚ)
    (oracle : Nat → List Char → Except FetchErrInfo ThreadPage)
    (urls : List (List Char)) :
    (scoreRedditUrls log10 oracle urls).length = urls.length ∧
    ∀ (i : Nat) (u : List Char), urls[i]? = some u →
      (scoreRedditUrls log10 oracle urls)[i]? =
        some (extractTopCommentScore log10 oracle u) ∧
      ((fetchWithRetries oracle (normalizeForScore u) 3 0).2 = none →
        (scoreRedditUrls log10 oracle urls)[i]? =
          some ({ url := u, score := 0 } : ScoreResult)) := by
  have hmap : scoreRedditUrls log10 oracle urls =
      urls.map (extractTopCommentScore log10 oracle) :=
    batchProcess_eq_map _ urls
  refine ⟨by rw [hmap, List.length_map], ?_⟩
  intro i u hu
  have h1 : (scoreRedditUrls log10 oracle urls)[i]? =
      some (extractTopCommentScore log10 oracle u) := by
    rw [hmap, List.getElem?_map, hu]
    rfl
  refine ⟨h1, fun hf => ?_⟩
  rw [h1]
  simp only [extractTopCommentScore, hf]

/-- Witness for C6: one URL whose every request fails scores 0 and the batch
has cardinality 1. -/
theorem scoreRedditUrls_c6_witness :
    (scoreRedditUrls (fun _ => 0) failOracle [c6Url]).length = [c6Url].length ∧
    (scoreRedditUrls (fun _ => 0) failOracle [c6Url])[0]? =
      some { url := c6Url, score := 0 } := by
  refine ⟨(scoreRedditUrls_c6 (fun _ => 0) failOracle [c6Url]).1, ?_⟩
  exact ((scoreRedditUrls_c6 (fun _ => 0) failOracle [c6Url]).2 0 c6Url rfl).2
    (by decide)

theorem foldl_highest (l : List (Option Nat)) : ∀ a : Nat,
    l.foldl (fun h s => match s with
      | some n => if h < n then n else h
      | none => h) a = max a ((l.filterMap id).foldr max 0) := by
  induction l with
  | nil => intro a; simp
  | cons s t ih =>
    intro a
    cases s with
    | none => simpa using ih a
    | some n =>
      simp only [List.foldl_cons, List.filterMap_cons, id, List.foldr_cons, ih]
      split
      · omega
      · omega

/-- Claim C7: for a successfully fetched page, the combined score is the
highest parsed comment score (0 if none) plus `log10(postScore) * 3` when the
extracted post score is strictly positive, and the highest comment score
alone when the post score is zero or absent (`postScoreOf` is 0 exactly when
both post-score patterns are absent or parse to 0). -/
theorem combinedScore_c7 (log10 : Nat → ℚ) (page : ThreadPage) :
    (0 < postScoreOf page →
      combinedScore log10 page =
        (((page.commentScores.filterMap id).foldr max 0 : Nat) : ℚ) +
          log10 (postScoreOf page) * 3) ∧
    (postScoreOf page = 0 →
      combinedScore log10 page =
        (((page.commentScores.filterMap id).foldr max 0 : Nat) : ℚ)) := by
  have hmax : highestCommentScore page =
      (page.commentScores.filterMap id).foldr max 0 := by
    rw [highestCommentScore, foldl_highest]
    omega
  constructor
  · intro hp
    rw [combinedScore, hmax, if_pos hp]
  · intro hp
    rw [combinedScore, hmax, if_neg (by omega), add_zero]

/-- Witness for C7: a page with comment scores 5 and 3 and post score 10
(via the alternate pattern), and a page with no post score, evaluated with
`log10 := fun _ => 2`. -/
theorem combinedScore_c7_witness :
    (0 < postScoreOf c7Page ∧
      combinedScore (fun _ => 2) c7Page =
        (((c7Page.commentScores.filterMap id).foldr max 0 : Nat) : ℚ) +
          (fun _ : Nat => (2 : ℚ)) (postScoreOf c7Page) * 3) ∧
    (postScoreOf c7PageZero = 0 ∧
      combinedScore (fun _ => 2) c7PageZero =
        (((c7PageZero.commentScores.filterMap id).foldr max 0 : Nat) : ℚ)) := by
  refine ⟨⟨by decide, (combinedScore_c7 (fun _ => 2) c7Page).1 (by decide)⟩,
    by decide, (combinedScore_c7 (fun _ => 2) c7PageZero).2 (by decide)⟩

/-! ## Retry-loop lemmas -/

theorem fetchWithRetries_succ (oracle : Nat → List Char → Except FetchErrInfo ThreadPage)
    (normUrl : List Char) (fuel retries : Nat) :
    fetchWithRetries oracle normUrl (fuel + 1) retries =
      (let pre : List FetchEv :=
        if 0 < retries then [FetchEv.wait (2000 * retries)] else []
      match attemptFetch oracle retries normUrl with
      | (evs, Except.ok p) => (pre ++ evs, some p)
      | (evs, Except.error _) =>
        if 3 ≤ retries + 1 then (pre ++ evs, none)
        else
          let rest := fetchWithRetries oracle normUrl fuel (retries + 1)
          (pre ++ evs ++ rest.1, rest.2)) := rfl

theorem reqEvsOf_append (a b : List FetchEv) :
    reqEvsOf (a ++ b) = reqEvsOf a ++ reqEvsOf b := by
  simp [reqEvsOf]

theorem reqEvsOf_wait_cons (ms : Nat) (l : List FetchEv) :
    reqEvsOf (FetchEv.wait ms :: l) = reqEvsOf l := by
  simp [reqEvsOf]

theorem waitEvsOf_append (a b : List FetchEv) :
    waitEvsOf (a ++ b) = waitEvsOf a ++ waitEvsOf b := by
  simp [waitEvsOf]

theorem waitEvsOf_wait_cons (ms : Nat) (l : List FetchEv) :
    waitEvsOf (FetchEv.wait ms :: l) = ms :: waitEvsOf l := by
  simp [waitEvsOf]

theorem reqEvsOf_attemptFetch (oracle : Nat → List Char → Except FetchErrInfo ThreadPage)
    (k : Nat) (norm : List Char) :
    reqEvsOf (attemptFetch oracle k norm).1 =
      (match oracle k norm with
      | Except.ok _ => [(k, norm)]
      | Except.error _ =>
        if containsSub norm oldRedditStr then [(k, norm), (k, altReddit norm)]
        else [(k, norm)]) := by
  rw [attemptFetch]
  cases h : oracle k norm with
  | ok p => simp [reqEvsOf]
  | error e =>
    by_cases hc : containsSub norm oldRedditStr = true
    · simp only [hc, if_true]
      cases h2 : oracle k (altReddit norm) with
      | ok p => simp [reqEvsOf]
      | error e2 => simp [reqEvsOf]
    · simp only [Bool.not_eq_true] at hc
      simp [hc, reqEvsOf]

theorem waitEvsOf_attemptFetch (oracle : Nat → List Char → Except FetchErrInfo ThreadPage)
    (k : Nat) (norm : List Char) :
    waitEvsOf (attemptFetch oracle k norm).1 = [] := by
  rw [attemptFetch]
  cases h : oracle k norm with
  | ok p => simp [waitEvsOf]
  | error e =>
    by_cases hc : containsSub norm oldRedditStr = true
    · simp only [hc, if_true]
      cases h2 : oracle k (altReddit norm) with
      | ok p => simp [waitEvsOf]
      | error e2 => simp [waitEvsOf]
    · simp only [Bool.not_eq_true] at hc
      simp [hc, waitEvsOf]

theorem mem_reqEvsOf_attemptFetch
    (oracle : Nat → List Char → Except FetchErrInfo ThreadPage)
    (k : Nat) (norm : List Char) (p : Nat × List Char)
    (hp : p ∈ reqEvsOf (attemptFetch oracle k norm).1) :
    p.1 = k ∧ (p.2 = norm ∨ p.2 = altReddit norm) := by
  rw [reqEvsOf_attemptFetch] at hp
  cases h : oracle k norm with
  | ok q =>
    rw [h] at hp
    simp at hp
    simp [hp]
  | error e =>
    rw [h] at hp
    by_cases hc : containsSub norm oldRedditStr = true
    · rw [if_pos hc] at hp
      rcases List.mem_cons.1 hp with rfl | hp'
      · simp
      · simp at hp'
        simp [hp']
    · rw [if_neg hc] at hp
      simp at hp
      simp [hp]

theorem alt_mem_of_error
    (oracle : Nat → List Char → Except FetchErrInfo ThreadPage)
    (k : Nat) (norm : List Char) (e : FetchErrInfo)
    (he : oracle k norm = Except.error e)
    (hold : containsSub norm oldRedditStr = true) :
    (k, altReddit norm) ∈ reqEvsOf (attemptFetch oracle k norm).1 := by
  rw [reqEvsOf_attemptFetch, he, if_pos hold]
  simp

theorem error_of_alt_mem
    (oracle : Nat → List Char → Except FetchErrInfo ThreadPage)
    (j : Nat) (norm : List Char) (k : Nat)
    (halt : altReddit norm ≠ norm)
    (hp : (k, altReddit norm) ∈ reqEvsOf (attemptFetch oracle j norm).1) :
    k = j ∧ ∃ e, oracle j norm = Except.error e := by
  rw [reqEvsOf_attemptFetch] at hp
  cases h : oracle j norm with
  | ok q =>
    rw [h] at hp
    simp at hp
    exact absurd hp.2 halt
  | error e =>
    rw [h] at hp
    by_cases hc : containsSub norm oldRedditStr = true
    · rw [if_pos hc] at hp
      rcases List.mem_cons.1 hp with heq | hp'
      · exact absurd (congrArg Prod.snd heq) halt
      · simp at hp'
        exact ⟨hp', e, rfl⟩
    · rw [if_neg hc] at hp
      simp at hp
      exact absurd hp.2 halt

/-- The three possible run shapes of the retry loop: success on attempt 0,
success on attempt 1 after one failure, or reaching attempt 2 after two
failures (whatever its outcome). -/
theorem fetchWithRetries3_cases
    (oracle : Nat → List Char → Except FetchErrInfo ThreadPage)
    (norm : List Char) :
    ((∃ p, (attemptFetch oracle 0 norm).2 = Except.ok p) ∧
      (fetchWithRetries oracle norm 3 0).1 = (attemptFetch oracle 0 norm).1) ∨
    ((∃ e, (attemptFetch oracle 0 norm).2 = Except.error e) ∧
      (∃ p, (attemptFetch oracle 1 norm).2 = Except.ok p) ∧
      (fetchWithRetries oracle norm 3 0).1 =
        (attemptFetch oracle 0 norm).1 ++
          FetchEv.wait 2000 :: (attemptFetch oracle 1 norm).1) ∨
    ((∃ e, (attemptFetch oracle 0 norm).2 = Except.error e) ∧
      (∃ e, (attemptFetch oracle 1 norm).2 = Except.error e) ∧
      (fetchWithRetries oracle norm 3 0).1 =
        (attemptFetch oracle 0 norm).1 ++
          FetchEv.wait 2000 :: (attemptFetch oracle 1 norm).1 ++
            FetchEv.wait 4000 :: (attemptFetch oracle 2 norm).1) := by
  have h3 : fetchWithRetries oracle norm 3 0 = fetchWithRetries oracle norm (2 + 1) 0 := rfl
  rcases hA0 : attemptFetch oracle 0 norm with ⟨evs0, r0⟩
  cases r0 with
  | ok p =>
    left
    refine ⟨⟨p, rfl⟩, ?_⟩
    rw [h3, fetchWithRetries_succ, hA0]
    simp
  | error e0 =>
    rcases hA1 : attemptFetch oracle 1 norm with ⟨evs1, r1⟩
    cases r1 with
    | ok p =>
      right; left
      refine ⟨⟨e0, rfl⟩, ⟨p, rfl⟩, ?_⟩
      rw [h3, fetchWithRetries_succ, hA0]
      have h2 : fetchWithRetries oracle norm 2 1 = fetchWithRetries oracle norm (1 + 1) 1 := rfl
      rw [h2, fetchWithRetries_succ, hA1]
      simp
    | error e1 =>
      right; right
      refine ⟨⟨e0, rfl⟩, ⟨e1, rfl⟩, ?_⟩
      rcases hA2 : attemptFetch oracle 2 norm with ⟨evs2, r2⟩
      rw [h3, fetchWithRetries_succ, hA0]
      have h2 : fetchWithRetries oracle norm 2 1 = fetchWithRetries oracle norm (1 + 1) 1 := rfl
      rw [h2, fetchWithRetries_succ, hA1]
      have h1 : fetchWithRetries oracle norm 1 2 = fetchWithRetries oracle norm (0 + 1) 2 := rfl
      rw [h1, fetchWithRetries_succ, hA2]
      cases r2 with
      | ok p => simp
      | error e2 => simp

theorem fetchRetry_trace_general
    (oracle : Nat → List Char → Except FetchErrInfo ThreadPage)
    (norm : List Char) (halt : altReddit norm ≠ norm) :
    List.IsPrefix (waitEvsOf (fetchWithRetries oracle norm 3 0).1) [2000, 4000] ∧
    (∀ p ∈ reqEvsOf (fetchWithRetries oracle norm 3 0).1, p.1 < 3) ∧
    (∀ k : Nat,
      (k, altReddit norm) ∈ reqEvsOf (fetchWithRetries oracle norm 3 0).1 →
      ∃ e, oracle k norm = Except.error e) ∧
    (∀ k : Nat, (k, norm) ∈ reqEvsOf (fetchWithRetries oracle norm 3 0).1 →
      (∃ e, oracle k norm = Except.error e) →
      containsSub norm oldRedditStr = true →
      (k, altReddit norm) ∈ reqEvsOf (fetchWithRetries oracle norm 3 0).1) := by
  rcases fetchWithRetries3_cases oracle norm with
    ⟨⟨p, hok⟩, htr⟩ | ⟨⟨e0, herr0⟩, ⟨p, hok1⟩, htr⟩ | ⟨⟨e0, herr0⟩, ⟨e1, herr1⟩, htr⟩
  · rw [htr]
    refine ⟨?_, ?_, ?_, ?_⟩
    · rw [waitEvsOf_attemptFetch]
      exact List.nil_prefix
    · intro p hp
      rw [(mem_reqEvsOf_attemptFetch oracle 0 norm p hp).1]
      decide
    · intro k hk
      rcases error_of_alt_mem oracle 0 norm k halt hk with ⟨rfl, he⟩
      exact he
    · intro k hk he hold
      obtain rfl := (mem_reqEvsOf_attemptFetch oracle 0 norm _ hk).1
      rcases he with ⟨e, he⟩
      exact alt_mem_of_error oracle 0 norm e he hold
  · rw [htr]
    have hre : reqEvsOf ((attemptFetch oracle 0 norm).1 ++
        FetchEv.wait 2000 :: (attemptFetch oracle 1 norm).1) =
        reqEvsOf (attemptFetch oracle 0 norm).1 ++
          reqEvsOf (attemptFetch oracle 1 norm).1 := by
      rw [reqEvsOf_append, reqEvsOf_wait_cons]
    refine ⟨?_, ?_, ?_, ?_⟩
    · simp only [waitEvsOf_append, waitEvsOf_wait_cons, waitEvsOf_attemptFetch,
        List.nil_append, List.append_nil]
      exact ⟨[4000], rfl⟩
    · intro p hp
      rw [hre] at hp
      rcases List.mem_append.1 hp with hp0 | hp1
      · rw [(mem_reqEvsOf_attemptFetch oracle 0 norm p hp0).1]
        decide
      · rw [(mem_reqEvsOf_attemptFetch oracle 1 norm p hp1).1]
        decide
    · intro k hk
      rw [hre] at hk
      rcases List.mem_append.1 hk with hk0 | hk1
      · rcases error_of_alt_mem oracle 0 norm k halt hk0 with ⟨rfl, he⟩
        exact he
      · rcases error_of_alt_mem oracle 1 norm k halt hk1 with ⟨rfl, he⟩
        exact he
    · intro k hk he hold
      rw [hre]
      rw [hre] at hk
      rcases he with ⟨e, he⟩
      rcases List.mem_append.1 hk with hk0 | hk1
      · obtain rfl := (mem_reqEvsOf_attemptFetch oracle 0 norm _ hk0).1
        exact List.mem_append.2 (Or.inl (alt_mem_of_error oracle 0 norm e he hold))
      · obtain rfl := (mem_reqEvsOf_attemptFetch oracle 1 norm _ hk1).1
        exact List.mem_append.2 (Or.inr (alt_mem_of_error oracle 1 norm e he hold))
  · rw [htr]
    have hre : reqEvsOf ((attemptFetch oracle 0 norm).1 ++
        FetchEv.wait 2000 :: (attemptFetch oracle 1 norm).1 ++
          FetchEv.wait 4000 :: (attemptFetch oracle 2 norm).1) =
        reqEvsOf (attemptFetch oracle 0 norm).1 ++
          (reqEvsOf (attemptFetch oracle 1 norm).1 ++
            reqEvsOf (attemptFetch oracle 2 norm).1) := by
      rw [reqEvsOf_append, reqEvsOf_wait_cons, reqEvsOf_append, reqEvsOf_wait_cons,
        List.append_assoc]
    refine ⟨?_, ?_, ?_, ?_⟩
    · simp only [waitEvsOf_append, waitEvsOf_wait_cons, waitEvsOf_attemptFetch,
        List.nil_append, List.append_nil]
      exact List.prefix_rfl
    · intro p hp
      rw [hre] at hp
      rcases List.mem_append.1 hp with hp0 | hp12
      · rw [(mem_reqEvsOf_attemptFetch oracle 0 norm p hp0).1]
        decide
      · rcases List.mem_append.1 hp12 with hp1 | hp2
        · rw [(mem_reqEvsOf_attemptFetch oracle 1 norm p hp1).1]
          decide
        · rw [(mem_reqEvsOf_attemptFetch oracle 2 norm p hp2).1]
          decide
    · intro k hk
      rw [hre] at hk
      rcases List.mem_append.1 hk with hk0 | hk12
      · rcases error_of_alt_mem oracle 0 norm k halt hk0 with ⟨rfl, he⟩
        exact he
      · rcases List.mem_append.1 hk12 with hk1 | hk2
        · rcases error_of_alt_mem oracle 1 norm k halt hk1 with ⟨rfl, he⟩
          exact he
        · rcases error_of_alt_mem oracle 2 norm k halt hk2 with ⟨rfl, he⟩
          exact he
    · intro k hk he hold
      rw [hre]
      rw [hre] at hk
      rcases he with ⟨e, he⟩
      rcases List.mem_append.1 hk with hk0 | hk12
      · obtain rfl := (mem_reqEvsOf_attemptFetch oracle 0 norm _ hk0).1
        exact List.mem_append.2 (Or.inl (alt_mem_of_error oracle 0 norm e he hold))
      · rcases List.mem_append.1 hk12 with hk1 | hk2
        · obtain rfl := (mem_reqEvsOf_attemptFetch oracle 1 norm _ hk1).1
          exact List.mem_append.2 (Or.inr (List.mem_append.2
            (Or.inl (alt_mem_of_error oracle 1 norm e he hold))))
        · obtain rfl := (mem_reqEvsOf_attemptFetch oracle 2 norm _ hk2).1
          exact List.mem_append.2 (Or.inr (List.mem_append.2
            (Or.inr (alt_mem_of_error oracle 2 norm e he hold))))

/-- Claim C8 (amended): the scorer's direct fetch makes at most 3 attempts
(numbered 0-2), waits `attempt × 2000` ms before each retry (the delay
sequence is a prefix of `[2000, 4000]`), and substitutes the alternate
`www.reddit.com` host variant inside every attempt whose primary
`old.reddit.com` request fails — not only on the final attempt; conversely
the alternate is only requested after a primary failure of the same
attempt. -/
theorem fetchRetry_c8_amended
    (oracle : Nat → List Char → Except FetchErrInfo ThreadPage)
    (url : List Char)
    (halt : altReddit (normalizeForScore url) ≠ normalizeForScore url) :
    List.IsPrefix (waitEvsOf (scoreTrace oracle url)) [2000, 4000] ∧
    (∀ p ∈ reqEvsOf (scoreTrace oracle url), p.1 < 3) ∧
    (∀ k : Nat,
      (k, altReddit (normalizeForScore url)) ∈ reqEvsOf (scoreTrace oracle url) →
      ∃ e, oracle k (normalizeForScore url) = Except.error e) ∧
    (∀ k : Nat, (k, normalizeForScore url) ∈ reqEvsOf (scoreTrace oracle url) →
      (∃ e, oracle k (normalizeForScore url) = Except.error e) →
      containsSub (normalizeForScore url) oldRedditStr = true →
      (k, altReddit (normalizeForScore url)) ∈ reqEvsOf (scoreTrace oracle url)) :=
  fetchRetry_trace_general oracle (normalizeForScore url) halt

/-- Witness for the amended C8 at a concrete `www.reddit.com` post URL whose
primary requests are rate-limited and whose alternate-host requests succeed:
the alternate is requested already on attempt 0. -/
theorem fetchRetry_c8_amended_witness :
    ((0 : Nat), altReddit (normalizeForScore c8Url)) ∈
      reqEvsOf (scoreTrace c8Oracle c8Url) ∧
    List.IsPrefix (waitEvsOf (scoreTrace c8Oracle c8Url)) [2000, 4000] := by
  refine ⟨?_, (fetchRetry_c8_amended c8Oracle c8Url (by decide)).1⟩
  exact (fetchRetry_c8_amended c8Oracle c8Url (by decide)).2.2.2 0 (by decide)
    ⟨{ status := some 429 }, by rfl⟩ (by decide)

/-- Counterexample to C8 as stated: with `c8Oracle` the alternate host is
requested on attempt 0, which is not the final attempt. -/
theorem fetchRetry_c8_counterexample :
    altHostOnlyOnFinalAttempt c8Oracle c8Url = false := by decide

/-! ## Reranker claims -/

/-- Claim C1 (amended): `rerankDocs` has no `quality` branch — with reranking
enabled, a non-"summarize" query, and docs/files not both absent, quality
mode falls through every branch and returns the empty list, so it is not
behaviourally the `balanced` path. -/
theorem rerankDocs_c1_amended (sim : List ℚ → List ℚ → ℚ)
    (embedQuery : List Char → List ℚ)
    (embedDocuments : List (List Char) → List (List ℚ))
    (rerankThreshold : Option ℚ) (query : List Char) (docs : List Doc)
    (files : List UploadedFile)
    (hq : toLowerL query ≠ summarizeStr)
    (hne : ¬(docs.length = 0 ∧ files.length = 0)) :
    rerankDocs sim embedQuery embedDocuments true rerankThreshold query docs
      files OptMode.quality = [] := by
  rw [rerankDocs, if_neg hne, if_neg hq, if_neg (by simp), if_neg (by simp)]

/-- Witness for the amended C1. -/
theorem rerankDocs_c1_amended_witness :
    rerankDocs unitSim unitEmbedQuery unitEmbedDocuments true
      (some (mkRat 3 10)) ("q".data) [helloDoc] [] OptMode.quality = [] :=
  rerankDocs_c1_amended unitSim unitEmbedQuery unitEmbedDocuments
    (some (mkRat 3 10)) ("q".data) [helloDoc] [] (by decide) (by decide)

/-- Counterexample to C1 as stated: on one non-empty document with a
similarity of 1 (above the 0.3 default threshold), `balanced` returns the
document while `quality` returns the empty list. -/
theorem rerankDocs_c1_counterexample :
    rerankDocs unitSim unitEmbedQuery unitEmbedDocuments true
        (some (mkRat 3 10)) ("q".data) [helloDoc] [] OptMode.balanced ≠
      rerankDocs unitSim unitEmbedQuery unitEmbedDocuments true
        (some (mkRat 3 10)) ("q".data) [helloDoc] [] OptMode.quality := by decide

/-- Claim C9 (amended): for every non-"summarize" query, speed mode with no
uploaded files returns exactly the first `min 30 _` documents with non-empty
content in input order (the embedding and similarity parameters do not occur
in the result).  A case-insensitive "summarize" query instead short-circuits
to the first 30 documents whether or not their content is empty. -/
theorem rerankDocs_c9_amended (sim : List ℚ → List ℚ → ℚ)
    (embedQuery : List Char → List ℚ)
    (embedDocuments : List (List Char) → List (List ℚ))
    (rerank : Bool) (rerankThreshold : Option ℚ) (query : List Char)
    (docs : List Doc) (hq : toLowerL query ≠ summarizeStr) :
    rerankDocs sim embedQuery embedDocuments rerank rerankThreshold query docs
        [] OptMode.speed =
      (docs.filter (fun d => 0 < d.pageContent.length)).take 30 ∧
    (rerankDocs sim embedQuery embedDocuments rerank rerankThreshold query docs
        [] OptMode.speed).length =
      min 30 (docs.filter (fun d => 0 < d.pageContent.length)).length := by
  have h1 : rerankDocs sim embedQuery embedDocuments rerank rerankThreshold
      query docs [] OptMode.speed =
      (docs.filter (fun d => 0 < d.pageContent.length)).take 30 := by
    by_cases hd : docs.length = 0 ∧ ([] : List UploadedFile).length = 0
    · rw [List.eq_nil_of_length_eq_zero hd.1]
      rfl
    · rw [rerankDocs, if_neg hd, if_neg hq, if_pos (Or.inl rfl)]
      rfl
  exact ⟨h1, by rw [h1, List.length_take]⟩

/-- Witness for the amended C9: one content-bearing and one empty document;
the empty one is dropped. -/
theorem rerankDocs_c9_amended_witness :
    rerankDocs zeroSim unitEmbedQuery unitEmbedDocuments true none ("k".data)
        [helloDoc, emptyContentDoc] [] OptMode.speed =
      (([helloDoc, emptyContentDoc]).filter
        (fun d => 0 < d.pageContent.length)).take 30 ∧
    (rerankDocs zeroSim unitEmbedQuery unitEmbedDocuments true none ("k".data)
        [helloDoc, emptyContentDoc] [] OptMode.speed).length =
      min 30 (([helloDoc, emptyContentDoc]).filter
        (fun d => 0 < d.pageContent.length)).length :=
  rerankDocs_c9_amended zeroSim unitEmbedQuery unitEmbedDocuments true none
    ("k".data) [helloDoc, emptyContentDoc] (by decide)

/-- Counterexample to C9 as stated ("for every query"): on the query
"summarize" the speed path is bypassed and an empty-content document is
returned, so the output size is not `min 30 len(docsWithContent)`. -/
theorem rerankDocs_c9_counterexample :
    (rerankDocs zeroSim unitEmbedQuery unitEmbedDocuments true none
        summarizeStr [emptyContentDoc] [] OptMode.speed).length ≠
      min 30 (([emptyContentDoc]).filter
        (fun d => 0 < d.pageContent.length)).length := by decide

/-! ## Link-mode claims -/

/-- Claim C3 (amended): the link-mode fetcher processes only normalized
reddit post links, and only the first 5 of them; each produced document is
either the processing result of such a link (extracted content or a failure
notice — a fetched page whose extraction fails contributes nothing) or the
unfetched placeholder of a non-reddit link; every non-reddit link gets its
placeholder; and no generic-text or PDF extraction exists. -/
theorem getDocumentsFromLinks_c3_amended
    (fetch : List Char → Except (List Char) RedditPage)
    (links : List (List Char)) :
    (∀ d ∈ getDocumentsFromLinks fetch links,
      (∃ l ∈ ((links.filterMap normalizeLink).filter
          (fun u => containsSub u redditComStr)).take 5,
        processRedditLink fetch l = some d) ∨
      (∃ l ∈ (links.filterMap normalizeLink).filter
          (fun u => !containsSub u redditComStr),
        d = nonRedditPlaceholder l)) ∧
    (∀ l ∈ (links.filterMap normalizeLink).filter
        (fun u => !containsSub u redditComStr),
      nonRedditPlaceholder l ∈ getDocumentsFromLinks fetch links) ∧
    (getDocumentsFromLinks fetch links).length ≤
      5 + ((links.filterMap normalizeLink).filter
        (fun u => !containsSub u redditComStr)).length := by
  refine ⟨?_, ?_, ?_⟩
  · intro d hd
    rw [getDocumentsFromLinks] at hd
    rcases List.mem_append.1 hd with hd1 | hd2
    · rcases List.mem_filterMap.1 hd1 with ⟨l, hl, hpl⟩
      exact Or.inl ⟨l, hl, hpl⟩
    · rcases List.mem_map.1 hd2 with ⟨l, hl, rfl⟩
      exact Or.inr ⟨l, hl, rfl⟩
  · intro l hl
    rw [getDocumentsFromLinks]
    exact List.mem_append.2 (Or.inr (List.mem_map.2 ⟨l, hl, rfl⟩))
  · rw [getDocumentsFromLinks, List.length_append, List.length_map]
    have h5 : (((links.filterMap normalizeLink).filter
        (fun u => containsSub u redditComStr)).take 5).length ≤ 5 :=
      List.length_take_le 5 _
    have hfm := List.length_filterMap_le (processRedditLink fetch)
      (((links.filterMap normalizeLink).filter
        (fun u => containsSub u redditComStr)).take 5)
    omega

/-- Witness for the amended C3: a single non-reddit link yields exactly its
placeholder. -/
theorem getDocumentsFromLinks_c3_witness :
    nonRedditPlaceholder exampleComLink ∈
      getDocumentsFromLinks errFetch [exampleComLink] :=
  (getDocumentsFromLinks_c3_amended errFetch [exampleComLink]).2.1
    exampleComLink (by decide)

/-- Counterexample to C3 as stated: a supplied reddit `/t/` link is dropped
during normalization and contributes no document at all — it is neither
fetched nor extracted. -/
theorem getDocumentsFromLinks_c3_counterexample :
    getDocumentsFromLinks errFetch [tfLink] = [] := by decide

/-! ## Web-search claims -/

theorem googleFetchPages_reqs_q (oracle : GRequest → Except Unit GResponse)
    (base : GRequest) (maxPages numResults : Nat) :
    ∀ (fuel p : Nat) (acc : List GResult),
      ∀ req ∈ (googleFetchPages oracle base maxPages numResults fuel p acc).2,
        req.q = base.q := by
  intro fuel
  induction fuel with
  | zero =>
    intro p acc req h
    simp [googleFetchPages] at h
  | succ fuel ih =>
    intro p acc req h
    by_cases hc : p ≤ maxPages ∧ acc.length < numResults
    · simp only [googleFetchPages, if_pos hc] at h
      split at h
      · rcases List.mem_singleton.1 h with rfl
        rfl
      · rename_i resp heq
        split at h
        · rename_i its hitems
          rcases List.mem_cons.1 h with rfl | h'
          · rfl
          · exact ih (p + 1) (acc ++ its.map mapGoogleItem) req h'
        · rcases List.mem_singleton.1 h with rfl
          rfl
    · simp only [googleFetchPages, if_neg hc] at h
      simp at h

/-- Claim C10 (amended): when the API key and engine id are configured, the
wrapper never raises — a failing first request yields the empty result set,
pagination failures are absorbed — and every request it sends carries the
query prefixed with the literal `Reddit `.  (When either credential is
missing it throws before sending anything; see the counterexample.) -/
theorem searchGoogle_c10_amended (apiKey searchEngineId : Option (List Char))
    (oracle : GRequest → Except Unit GResponse) (query : List Char)
    (opts : GOpts) (hk : falsyStr apiKey = false)
    (he : falsyStr searchEngineId = false) :
    (∃ out, (searchGoogle apiKey searchEngineId oracle query opts).1 =
      Except.ok out) ∧
    (oracle (googleBaseRequest query opts) = Except.error () →
      (searchGoogle apiKey searchEngineId oracle query opts).1 =
        Except.ok { results := [], suggestions := [] }) ∧
    (∀ req ∈ (searchGoogle apiKey searchEngineId oracle query opts).2,
      req.q = "Reddit ".data ++ query) := by
  have hcfg : ¬ ((falsyStr apiKey || falsyStr searchEngineId) = true) := by
    rw [hk, he]
    decide
  simp only [searchGoogle]
  rw [if_neg hcfg]
  cases ho : oracle (googleBaseRequest query opts) with
  | error e =>
    refine ⟨⟨{ results := [], suggestions := [] }, rfl⟩, fun _ => rfl, ?_⟩
    intro req h
    rcases List.mem_singleton.1 h with rfl
    rfl
  | ok resp =>
    simp only []
    refine ⟨?_, fun hcontra => ?_, ?_⟩
    · by_cases hpg : 10 < opts.numResults.getD 10 ∧
        (List.map mapGoogleItem (resp.items.getD [])).length = 10 ∧
          resp.hasNextPage = true
      · exact ⟨_, by rw [if_pos hpg]⟩
      · exact ⟨_, by rw [if_neg hpg]⟩
    · exact absurd hcontra (by simp)
    · intro req h
      by_cases hpg : 10 < opts.numResults.getD 10 ∧
        (List.map mapGoogleItem (resp.items.getD [])).length = 10 ∧
          resp.hasNextPage = true
      · rw [if_pos hpg] at h
        rcases List.mem_cons.1 h with rfl | h'
        · rfl
        · exact googleFetchPages_reqs_q oracle (googleBaseRequest query opts)
            _ _ _ _ _ req h'
      · rw [if_neg hpg] at h
        rcases List.mem_singleton.1 h with rfl
        rfl

/-- Witness for the amended C10: with credentials configured and a failing
request, the wrapper returns the empty result set. -/
theorem searchGoogle_c10_witness :
    (searchGoogle (some ("k".data)) (some ("x".data)) c10Oracle ("q".data)
        ({} : GOpts)).1 = Except.ok { results := [], suggestions := [] } :=
  (searchGoogle_c10_amended (some ("k".data)) (some ("x".data)) c10Oracle
    ("q".data) ({} : GOpts) rfl rfl).2.1 rfl

/-- Counterexample to C10 as stated: with the API key unset the wrapper
throws its configuration error before any request, i.e. it does raise past
its boundary. -/
theorem searchGoogle_c10_counterexample :
    (searchGoogle none (some ("x".data)) c10Oracle ("q".data)
        ({} : GOpts)).1 = Except.error cfgErrorMsg := by rfl

/-! ## Context-assembler claims -/

theorem length_jsSubstring (s : List Char) (a b : Nat) :
    (jsSubstring s a b).length =
      min (max a b) s.length - min (min a b) s.length := by
  simp only [jsSubstring, List.length_take, List.length_drop]
  omega

theorem length_std75 (c : List Char) (m : Nat) :
    (std75 c m).length ≤ m + truncationMarker.length := by
  rw [std75, List.length_append, List.length_append, length_jsSubstring,
    length_jsSubstring]
  omega

/-- Claim C2 (amended): the per-document cap holds for non-discussion
documents (2000 plus the 29-character truncation marker) and for
discussion-flagged documents in which the two section markers are not both
found (6000 plus the marker); a discussion document with both markers keeps
its full title and post sections, so its block can exceed the 6000 cap (see
the counterexample). -/
theorem processDocContent_c2_amended (content : List Char) :
    ((processDocContent false content).length ≤ 2000 + truncationMarker.length) ∧
    ((jsIndexOf content originalPostMarker).isNone ∨
        (jsIndexOf content commentsMarker).isNone →
      (processDocContent true content).length ≤ 6000 + truncationMarker.length) := by
  constructor
  · simp only [processDocContent, Bool.false_eq_true, if_false]
    split
    · rename_i hle
      omega
    · exact length_std75 content 2000
  · intro h
    simp only [processDocContent, if_true]
    split
    · rename_i hle
      omega
    · cases hopq : jsIndexOf content originalPostMarker with
      | none =>
        cases hcmq : jsIndexOf content commentsMarker with
        | none =>
          simp only [hopq, hcmq]
          exact length_std75 content 6000
        | some j =>
          simp only [hopq, hcmq]
          exact length_std75 content 6000
      | some i =>
        cases hcmq : jsIndexOf content commentsMarker with
        | none =>
          simp only [hopq, hcmq]
          exact length_std75 content 6000
        | some j =>
          rw [hopq, hcmq] at h
          rcases h with h1 | h1 <;> exact absurd h1 (by simp)

/-- Witness for the amended C2: the empty content (no markers) and a short
non-discussion content satisfy their caps. -/
theorem processDocContent_c2_amended_witness :
    ((jsIndexOf ([] : List Char) originalPostMarker).isNone ∨
      (jsIndexOf ([] : List Char) commentsMarker).isNone) ∧
    (processDocContent true []).length ≤ 6000 + truncationMarker.length ∧
    (processDocContent false ("abc".data)).length ≤
      2000 + truncationMarker.length :=
  ⟨by decide, (processDocContent_c2_amended []).2 (by decide),
    (processDocContent_c2_amended ("abc".data)).1⟩

theorem isPrefixL_append_self (p t : List Char) :
    isPrefixL p (p ++ t) = true := by
  induction p with
  | nil => rfl
  | cons c cs ih => simp [isPrefixL, ih]

theorem jsIndexOf_of_prefix (s pat : List Char)
    (h : isPrefixL pat s = true) : jsIndexOf s pat = some 0 := by
  cases s with
  | nil =>
    cases pat with
    | nil => rfl
    | cons c cs => exact absurd h (by simp [isPrefixL])
  | cons c t => rw [jsIndexOf, if_pos h]

theorem jsIndexOf_append_of_notfound (x y pat : List Char)
    (hx : ∀ i, i < x.length → isPrefixL pat (x.drop i ++ y) = false) :
    jsIndexOf (x ++ y) pat = (jsIndexOf y pat).map (· + x.length) := by
  induction x with
  | nil =>
    cases hjs : jsIndexOf y pat with
    | none => simp [hjs]
    | some i => simp [hjs]
  | cons c x' ih =>
    have h0 : isPrefixL pat (c :: (x' ++ y)) = false := by
      have := hx 0 (by simp)
      simpa using this
    rw [List.cons_append, jsIndexOf, if_neg (by simp [h0]),
      ih (fun i hi => by simpa using hx (i + 1) (by simpa using Nat.succ_lt_succ hi))]
    cases hjs : jsIndexOf y pat with
    | none => simp [hjs]
    | some i =>
      simp [hjs]
      omega

theorem jsSubstring_zero_length (s : List Char) :
    jsSubstring s 0 s.length = s := by
  simp [jsSubstring]

theorem jsLastIndexOf_no_newline (s : List Char) (k : Nat)
    (h : ∀ c ∈ s, ¬ c = '\n') :
    jsLastIndexOf s ("\n\n".data) k = none := by
  have hnn2 : "\n\n".data = ['\n', '\n'] := rfl
  rw [jsLastIndexOf, hnn2]
  have hfil : (List.range (s.length + 1)).filter
      (fun i => decide (i ≤ k) && isPrefixL ['\n', '\n'] (s.drop i)) = [] := by
    rw [List.filter_eq_nil_iff]
    intro i _
    suffices hpf : isPrefixL ['\n', '\n'] (s.drop i) = false by
      simp [hpf]
    cases hd : s.drop i with
    | nil => rfl
    | cons c t =>
      have hc : c ∈ s := List.drop_subset i s (by rw [hd]; exact List.mem_cons_self c t)
      have hne : ('\n' == c) = false :=
        beq_eq_false_iff_ne.2 (fun heq => h c hc heq.symm)
      simp [isPrefixL, hne]
  rw [hfil]
  rfl

/-- Counterexample to C2 as stated: `c2Bad` is a 6005-character
discussion-flagged content whose both section markers are found, whose post
section is the 11 leading characters (the marker order makes JS `substring`
swap its arguments), and whose comments section contains no paragraph break;
the emitted block has 6050 characters, exceeding the 6000-character cap plus
the 29-character truncation marker. -/
theorem processDocContent_c2_counterexample :
    6000 + truncationMarker.length < (processDocContent true c2Bad).length := by
  have h11 : commentsMarker.length = 11 := rfl
  have h16 : originalPostMarker.length = 16 := rfl
  have hlen : c2Bad.length = 6005 := by
    rw [c2Bad, List.length_append, List.length_append, List.length_replicate,
      h11, h16]
  have hgt : ¬ (c2Bad.length ≤ 6000) := by
    rw [hlen]
    omega
  have hcm : jsIndexOf c2Bad commentsMarker = some 0 := by
    rw [c2Bad]
    exact jsIndexOf_of_prefix _ _ (isPrefixL_append_self _ _)
  have hop : jsIndexOf c2Bad originalPostMarker = some 11 := by
    rw [c2Bad, jsIndexOf_append_of_notfound _ _ _ (by decide),
      jsIndexOf_of_prefix _ _ (isPrefixL_append_self _ _)]
    rfl
  have hpostlen : (jsSubstring c2Bad 11 0).length = 11 := by
    rw [length_jsSubstring, hlen]
    decide
  have htitlelen : (jsSubstring c2Bad 0 11).length = 11 := by
    rw [length_jsSubstring, hlen]
    decide
  have hcs : jsSubstring c2Bad 0 c2Bad.length = c2Bad := jsSubstring_zero_length c2Bad
  have hchars : ∀ c ∈ c2Bad, ¬ c = '\n' := by
    intro c hc
    rw [c2Bad] at hc
    rcases List.mem_append.1 hc with h1 | h2
    · exact (by decide : ∀ x ∈ commentsMarker, ¬ x = '\n') c h1
    · rcases List.mem_append.1 h2 with h3 | h4
      · exact (by decide : ∀ x ∈ originalPostMarker, ¬ x = '\n') c h3
      · rw [List.eq_of_mem_replicate h4]
        decide
  simp only [processDocContent, if_true]
  rw [if_neg hgt, hop, hcm]
  simp only []
  rw [hpostlen]
  rw [if_pos (by decide : (500 : Int) < ((6000 : Nat) : Int) - ((11 : Nat) : Int))]
  rw [hcs]
  simp only [hlen]
  rw [if_pos (by decide : ((6000 : Nat) : Int) - ((11 : Nat) : Int) < ((6005 : Nat) : Int))]
  rw [jsLastIndexOf_no_newline c2Bad _ hchars]
  simp only []
  have hcut : (jsSubstring c2Bad 0 (Int.toNat (((6000 : Nat) : Int) - ((11 : Nat) : Int)))).length = 5989 := by
    have htn : Int.toNat (((6000 : Nat) : Int) - ((11 : Nat) : Int)) = 5989 := by decide
    rw [htn, length_jsSubstring, hlen]
    decide
  rw [List.length_append, List.length_append, List.length_append,
    htitlelen, hpostlen, hcut]
  have h39 : additionalCommentsMarker.length = 39 := rfl
  have h29 : truncationMarker.length = 29 := rfl
  omega

end Perplexica
